import Mathlib

/-!
# Credential and token lifecycle of `app/db/models/index.js`

A shallow embedding of the login-token, reset-code and password operations
of the webmaker login service's model layer, together with theorems settling
the specification's claims about them.

Conventions of the embedding:

* the persisted tables are lists of records; each record carries the primary
  key `id` that sequelize's `updateAttributes` addresses;
* timestamps are natural numbers of milliseconds since the epoch, as
  produced by `Date.now()`; the `createdAt >= moment(now - TTL)` range
  query becomes `now - TTL ≤ createdAt` with truncated subtraction;
* a callback-style operation becomes a pure function returning the updated
  table together with the outcome the callback observes;
* the fresh random token or code drawn inside an operation is passed to the
  embedded operation as an argument, since randomness itself is external.
-/

namespace WebmakerModels

/-- The error values the model layer hands to its callbacks: the
`{error: "unauthorized"}` rejection of `lookupToken`, the generic
`"Login Database Error"` of `changePassword`, the generic
`"Error removing password"` of `removePassword`, and the generic
`"Error Creating Reset Authorization"` of `createResetCode`. -/
inductive ModelError where
  | unauthorized
  | loginDatabaseError
  | errorRemovingPassword
  | errorCreatingResetAuthorization
deriving DecidableEq, Repr

/-- Outcome a caller of a callback-style operation observes: the callback
invoked with success, the callback invoked with an error value, or a
synchronous TypeError thrown before any callback runs (a JavaScript
dereference of a property of `undefined`). -/
inductive CallOutcome (α : Type) where
  | ok (a : α)
  | err (e : ModelError)
  | thrown
deriving DecidableEq, Repr

/-- `TOKEN_EXPIRY_TIME` of index.js: thirty minutes in milliseconds. -/
def TOKEN_EXPIRY_TIME : Nat := 1000 * 60 * 30

/-- `RESET_CODE_BIT_LENGTH` of index.js. -/
def RESET_CODE_BIT_LENGTH : Nat := 256

/-- `RESET_CODE_BASE` of index.js. -/
def RESET_CODE_BASE : Nat := 16

/-- `RESET_EXPIRY_TIME` of index.js: twenty-four hours in milliseconds. -/
def RESET_EXPIRY_TIME : Nat := 1000 * 60 * 60 * 24

/-- `BCRYPT_ROUNDS` of index.js. -/
def BCRYPT_ROUNDS : Nat := 12

/-- A row of the `loginToken` table. The `used` default of `false` and the
`createdAt`-at-insertion default are column defaults declared in
loginToken.js (modelled from the spec: "Used: boolean, initially false;
CreatedAt: timestamp, set at issuance"). -/
structure LoginToken where
  id : Nat
  userId : Nat
  token : String
  used : Bool
  createdAt : Nat
deriving DecidableEq, Repr

/-- The where-clause of `lookupToken`: `UserId`, `token`, `used: false` and
`createdAt >= now - TOKEN_EXPIRY_TIME`. -/
def tokenMatches (now uid : Nat) (tok : String) (t : LoginToken) : Bool :=
  t.userId == uid && t.token == tok && t.used == false &&
    decide (now - TOKEN_EXPIRY_TIME ≤ t.createdAt)

/-- `updateAttributes({used: true}, ["used"])` on a found row: an UPDATE
addressed by the row's primary key, with no further condition. -/
def markTokenUsed (db : List LoginToken) (i : Nat) : List LoginToken :=
  db.map fun r => if r.id == i then { r with used := true } else r

/-- The first store access of `lookupToken`: `loginToken.find({where: ...})`,
yielding the primary key of the first matching row, if any. -/
def lookupFindStep (db : List LoginToken) (now uid : Nat) (tok : String) :
    Option Nat :=
  (db.find? (tokenMatches now uid tok)).map LoginToken.id

/-- The second store access of `lookupToken`: reject with the unauthorized
error when the find produced no row, otherwise write `used := true` on the
found row by primary key. The write is unconditional: it is not guarded by
a `used == false` predicate at the store. -/
def lookupWriteStep (db : List LoginToken) (found : Option Nat) :
    List LoginToken × Except ModelError Unit :=
  match found with
  | none => (db, Except.error ModelError.unauthorized)
  | some i => (markTokenUsed db i, Except.ok ())

/-- `lookupToken(userObj, token, callback)`: the find followed by the
per-row update, run back to back. -/
def lookupToken (db : List LoginToken) (now uid : Nat) (tok : String) :
    List LoginToken × Except ModelError Unit :=
  lookupWriteStep db (lookupFindStep db now uid tok)

theorem tokenMatches_iff (now uid : Nat) (tok : String) (t : LoginToken) :
    tokenMatches now uid tok t = true ↔
      t.userId = uid ∧ t.token = tok ∧ t.used = false ∧
        now - TOKEN_EXPIRY_TIME ≤ t.createdAt := by
  simp [tokenMatches, Bool.and_eq_true, beq_iff_eq, decide_eq_true_eq, and_assoc]

/-- Claim C1: login-token verification succeeds iff the table holds a row
matching the user id and token with `used == false` and `createdAt` no older
than thirty minutes before now; on success the found row's `used` field is
flipped to true; on failure the table is unchanged and the outcome is the
single uninformative unauthorized error, whatever the cause. -/
theorem lookupToken_matches_spec (db : List LoginToken) (now uid : Nat)
    (tok : String) :
    ((∃ t ∈ db, t.userId = uid ∧ t.token = tok ∧ t.used = false ∧
        now - TOKEN_EXPIRY_TIME ≤ t.createdAt) ↔
      (lookupToken db now uid tok).2 = Except.ok ())
  ∧ ((lookupToken db now uid tok).2 = Except.ok () →
      ∃ t ∈ db, tokenMatches now uid tok t = true ∧
        (lookupToken db now uid tok).1 = markTokenUsed db t.id ∧
        { t with used := true } ∈ (lookupToken db now uid tok).1)
  ∧ ((lookupToken db now uid tok).2 ≠ Except.ok () →
      lookupToken db now uid tok = (db, Except.error ModelError.unauthorized)) := by
  cases hf : db.find? (tokenMatches now uid tok) with
  | none =>
    have hred : lookupToken db now uid tok = (db, Except.error ModelError.unauthorized) := by
      simp [lookupToken, lookupWriteStep, lookupFindStep, hf]
    rw [List.find?_eq_none] at hf
    rw [hred]
    refine ⟨⟨fun ⟨t, ht, h⟩ => absurd ((tokenMatches_iff now uid tok t).mpr h) (hf t ht),
      fun h => by simp at h⟩, fun h => by simp at h, fun _ => rfl⟩
  | some t =>
    have hred : lookupToken db now uid tok = (markTokenUsed db t.id, Except.ok ()) := by
      simp [lookupToken, lookupWriteStep, lookupFindStep, hf]
    have htmem : t ∈ db := List.mem_of_find?_eq_some hf
    have htp : tokenMatches now uid tok t = true := List.find?_some hf
    rw [hred]
    refine ⟨⟨fun _ => rfl, fun _ => ⟨t, htmem, (tokenMatches_iff now uid tok t).mp htp⟩⟩,
      fun _ => ⟨t, htmem, htp, rfl, ?_⟩, fun h => absurd rfl h⟩
    simp only [markTokenUsed, List.mem_map]
    exact ⟨t, htmem, by simp⟩

/-- A password credential row (password.js, the `hasOne` association of
user): the primary key and the `saltedHash` column; `none` models a hash
column that was never assigned a defined value. -/
structure Credential where
  id : Nat
  saltedHash : Option String
deriving DecidableEq, Repr

/-- The user record as this model layer touches it: identity, the fields
the credential operations read (`username`, `email`, `verified`) or write
(`usePasswordLogin`), and the `hasOne` password association. -/
structure UserRec where
  id : Nat
  username : String
  email : String
  verified : Bool
  usePasswordLogin : Bool
  password : Option Credential
deriving DecidableEq, Repr

/-- The hatchet events this model layer emits, with their exact payload
fields in source order. -/
inductive Event where
  | loginTokenEmail (userId : Nat) (username : String) (verified : Bool)
      (email : String) (loginUrl : String) (token : String)
  | resetCodeCreated (email : String) (username : String) (resetUrl : String)
  | userPasswordChanged (email : String) (username : String)
deriving DecidableEq, Repr

/-- `createToken(userObj, appURL, callback)`: builds a loginToken row from
the freshly generated token and the user's id, saves it and emits the
`login_token_email` event carrying the constructed login URL. -/
def createToken (db : List LoginToken) (newId : Nat) (u : UserRec)
    (tok appURL : String) (now : Nat) : List LoginToken × Event :=
  (db ++ [{ id := newId, userId := u.id, token := tok, used := false, createdAt := now }],
   Event.loginTokenEmail u.id u.username u.verified u.email
     (appURL ++ "/?uid=" ++ u.username ++ "&token=" ++ tok) tok)

theorem find?_append_of_none {α : Type} (p : α → Bool) (l₁ l₂ : List α)
    (h : ∀ a ∈ l₁, p a = false) : (l₁ ++ l₂).find? p = l₂.find? p := by
  induction l₁ with
  | nil => rfl
  | cons a l ih =>
    have ha := h a (List.mem_cons_self a l)
    rw [List.cons_append, List.find?_cons_of_neg _ (by simp [ha])]
    exact ih fun x hx => h x (List.mem_cons_of_mem a hx)

/-- Claim C2: a freshly issued login token verifies exactly once: when the
token string is new for this user, the first `lookupToken` inside the
thirty-minute window succeeds, and a second `lookupToken` with the same
user and token, at any later time, fails with the unauthorized error. -/
theorem createToken_single_use (db : List LoginToken) (newId : Nat)
    (u : UserRec) (tok appURL : String) (now t1 t2 : Nat)
    (hfresh : ∀ t ∈ db, ¬(t.userId = u.id ∧ t.token = tok))
    (hwin : t1 - TOKEN_EXPIRY_TIME ≤ now) :
    ∃ db2, lookupToken (createToken db newId u tok appURL now).1 t1 u.id tok
        = (db2, Except.ok ())
      ∧ (lookupToken db2 t2 u.id tok).2
        = Except.error ModelError.unauthorized := by
  set newRow : LoginToken :=
    { id := newId, userId := u.id, token := tok, used := false, createdAt := now }
    with hnew
  have hnomatch : ∀ t ∈ db, tokenMatches t1 u.id tok t = false := by
    intro t ht
    cases hm : tokenMatches t1 u.id tok t with
    | false => rfl
    | true =>
      exact absurd ⟨((tokenMatches_iff t1 u.id tok t).mp hm).1,
        ((tokenMatches_iff t1 u.id tok t).mp hm).2.1⟩ (hfresh t ht)
  have hmatchNew : tokenMatches t1 u.id tok newRow = true := by
    simp [tokenMatches, hnew, hwin]
  have hfind1 : (db ++ [newRow]).find? (tokenMatches t1 u.id tok) = some newRow := by
    rw [find?_append_of_none _ _ _ hnomatch]
    simp [List.find?, hmatchNew]
  have h1 : lookupToken (db ++ [newRow]) t1 u.id tok
      = (markTokenUsed (db ++ [newRow]) newId, Except.ok ()) := by
    simp [lookupToken, lookupWriteStep, lookupFindStep, hfind1, hnew]
  have hfind2 : (markTokenUsed (db ++ [newRow]) newId).find?
      (tokenMatches t2 u.id tok) = none := by
    rw [List.find?_eq_none]
    intro x hx
    simp only [markTokenUsed, List.mem_map] at hx
    obtain ⟨y, hy, rfl⟩ := hx
    rcases List.mem_append.mp hy with hyd | hys
    · intro hm
      split at hm <;>
        · rw [tokenMatches_iff] at hm
          exact hfresh y hyd ⟨hm.1, hm.2.1⟩
    · have hyn : y = newRow := List.mem_singleton.mp hys
      subst hyn
      simp [tokenMatches, hnew]
  have h2 : (lookupToken (markTokenUsed (db ++ [newRow]) newId) t2 u.id tok).2
      = Except.error ModelError.unauthorized := by
    simp [lookupToken, lookupWriteStep, lookupFindStep, hfind2]
  have hc : (createToken db newId u tok appURL now).1 = db ++ [newRow] := rfl
  rw [hc]
  exact ⟨markTokenUsed (db ++ [newRow]) newId, h1, h2⟩

/-- Claim C2's theorem at a concrete input: a token issued for user 7 at
time 0 verifies at time 0, and a second verification at a later time fails
with the unauthorized error. -/
theorem createToken_single_use_witness :
    ∃ db2,
      lookupToken (createToken [] 1
          { id := 7, username := "ann", email := "ann@example.org",
            verified := true, usePasswordLogin := false, password := none }
          "kapop" "http://app" 0).1 0 7 "kapop" = (db2, Except.ok ())
      ∧ (lookupToken db2 1800001 7 "kapop").2
        = Except.error ModelError.unauthorized :=
  createToken_single_use [] 1
    { id := 7, username := "ann", email := "ann@example.org",
      verified := true, usePasswordLogin := false, password := none }
    "kapop" "http://app" 0 0 1800001
    (by intro t ht; exact absurd ht (List.not_mem_nil t)) (by decide)

/-- A row of the `resetCode` table. The `used` and `invalid` defaults of
`false` and the `createdAt`-at-insertion default are column defaults
declared in resetCode.js (modelled from the spec: "Used: boolean, initially
false; Invalid: boolean, initially false; CreatedAt: timestamp, set at
issuance"). -/
structure ResetCode where
  id : Nat
  userId : Nat
  code : String
  used : Bool
  invalid : Bool
  createdAt : Nat
deriving DecidableEq, Repr

/-- The where-clause of `invalidateActiveResets`: `UserId`, `used: false`,
`invalid: false` and `createdAt >= now - RESET_EXPIRY_TIME`. -/
def resetActive (now uid : Nat) (r : ResetCode) : Bool :=
  r.userId == uid && r.used == false && r.invalid == false &&
    decide (now - RESET_EXPIRY_TIME ≤ r.createdAt)

/-- `invalidateActiveResets(user, callback)`: one UPDATE setting
`invalid := true` on every row the where-clause selects, handing the number
of affected rows to the callback. -/
def invalidateActiveResets (db : List ResetCode) (now uid : Nat) :
    List ResetCode × Nat :=
  (db.map fun r => if resetActive now uid r then { r with invalid := true } else r,
   (db.filter (resetActive now uid)).length)

/-- The where-clause of `validateReset`: `code`, `UserId`, `used: false`,
`invalid: false` and `createdAt >= now - RESET_EXPIRY_TIME`. -/
def resetMatches (now uid : Nat) (code : String) (r : ResetCode) : Bool :=
  r.code == code && r.userId == uid && r.used == false && r.invalid == false &&
    decide (now - RESET_EXPIRY_TIME ≤ r.createdAt)

/-- `updateAttributes({used: true}, ["used"])` on a found reset row: an
UPDATE addressed by the row's primary key, with no further condition. -/
def markResetUsed (db : List ResetCode) (i : Nat) : List ResetCode :=
  db.map fun r => if r.id == i then { r with used := true } else r

/-- `validateReset(code, user, callback)`: find the first row the
where-clause selects; when none exists hand `false` to the callback (not an
error), otherwise flip the found row's `used` to true and hand `true`. -/
def validateReset (db : List ResetCode) (now : Nat) (code : String) (uid : Nat) :
    List ResetCode × Bool :=
  match db.find? (resetMatches now uid code) with
  | none => (db, false)
  | some r => (markResetUsed db r.id, true)

/-- `createResetCode(user, callback)`: builds a resetCode row from the
freshly generated code and the user's id, saves it, and emits the
`reset_code_created` event with the reset URL built from the configured
base URL. On store failure the callback instead receives the generic
creation error (not modelled further; no claim probes that path). -/
def createResetCode (db : List ResetCode) (newId : Nat) (u : UserRec)
    (code webmakerURL : String) (now : Nat) : List ResetCode × Event :=
  (db ++ [{ id := newId, userId := u.id, code := code, used := false,
            invalid := false, createdAt := now }],
   Event.resetCodeCreated u.email u.username
     (webmakerURL ++ "/?uid=" ++ u.username ++ "&resetCode=" ++ code))

theorem resetActive_iff (now uid : Nat) (r : ResetCode) :
    resetActive now uid r = true ↔
      r.userId = uid ∧ r.used = false ∧ r.invalid = false ∧
        now - RESET_EXPIRY_TIME ≤ r.createdAt := by
  simp [resetActive, Bool.and_eq_true, beq_iff_eq, decide_eq_true_eq, and_assoc]

theorem resetMatches_iff (now uid : Nat) (code : String) (r : ResetCode) :
    resetMatches now uid code r = true ↔
      r.code = code ∧ r.userId = uid ∧ r.used = false ∧ r.invalid = false ∧
        now - RESET_EXPIRY_TIME ≤ r.createdAt := by
  simp [resetMatches, Bool.and_eq_true, beq_iff_eq, decide_eq_true_eq, and_assoc]

/-- Claim C3: `invalidateActiveResets` flips `invalid` to true on exactly
the user's rows that are unused, not yet invalid and inside the
twenty-four-hour window, returns their count, leaves every other row
unchanged, and afterwards `validateReset` for this user returns false for
any code, at the same or any later time. -/
theorem invalidateActiveResets_spec (db : List ResetCode) (now nowLater uid : Nat)
    (h : now ≤ nowLater) :
    ((invalidateActiveResets db now uid).2
      = (db.filter fun r =>
          r.userId == uid && r.used == false && r.invalid == false &&
            decide (now - RESET_EXPIRY_TIME ≤ r.createdAt)).length)
  ∧ (invalidateActiveResets db now uid).1.length = db.length
  ∧ (∀ x, x ∈ (invalidateActiveResets db now uid).1 ↔
      ∃ r ∈ db, (resetActive now uid r = true ∧ x = { r with invalid := true })
        ∨ (resetActive now uid r = false ∧ x = r))
  ∧ (∀ c, (validateReset (invalidateActiveResets db now uid).1 nowLater c uid).2
      = false) := by
  refine ⟨rfl, List.length_map db _, fun x => ?_, fun c => ?_⟩
  · constructor
    · intro hx
      simp only [invalidateActiveResets, List.mem_map] at hx
      obtain ⟨r, hr, rfl⟩ := hx
      by_cases hact : resetActive now uid r = true
      · exact ⟨r, hr, Or.inl ⟨hact, by rw [if_pos hact]⟩⟩
      · have hfact : resetActive now uid r = false := by simpa using hact
        exact ⟨r, hr, Or.inr ⟨hfact, by rw [if_neg hact]⟩⟩
    · rintro ⟨r, hr, ⟨hact, rfl⟩ | ⟨hact, rfl⟩⟩
      · simp only [invalidateActiveResets, List.mem_map]
        exact ⟨r, hr, by rw [if_pos hact]⟩
      · simp only [invalidateActiveResets, List.mem_map]
        exact ⟨x, hr, by rw [if_neg (by simp [hact])]⟩
  · have hnone : ((invalidateActiveResets db now uid).1).find?
        (resetMatches nowLater uid c) = none := by
      rw [List.find?_eq_none]
      intro x hx
      simp only [invalidateActiveResets, List.mem_map] at hx
      obtain ⟨r, hr, rfl⟩ := hx
      by_cases hact : resetActive now uid r = true
      · rw [if_pos hact]
        simp [resetMatches]
      · rw [if_neg hact]
        intro hm
        rw [resetMatches_iff] at hm
        refine hact ?_
        rw [resetActive_iff]
        exact ⟨hm.2.1, hm.2.2.1, hm.2.2.2.1,
          le_trans (Nat.sub_le_sub_right h RESET_EXPIRY_TIME) hm.2.2.2.2⟩
    simp [validateReset, hnone]

/-- Claim C3's theorem at a concrete input: invalidating the single active
reset row of user 7 reports one affected row. -/
theorem invalidateActiveResets_spec_witness :
    (invalidateActiveResets
      [{ id := 1, userId := 7, code := "c1", used := false, invalid := false,
         createdAt := 100 }] 100 7).2
    = (([{ id := 1, userId := 7, code := "c1", used := false, invalid := false,
           createdAt := 100 }] : List ResetCode).filter fun r =>
        r.userId == 7 && r.used == false && r.invalid == false &&
          decide (100 - RESET_EXPIRY_TIME ≤ r.createdAt)).length :=
  (invalidateActiveResets_spec
    [{ id := 1, userId := 7, code := "c1", used := false, invalid := false,
       createdAt := 100 }] 100 100 7 (Nat.le_refl 100)).1

theorem eq_of_filter_length_le_one {α : Type} (p : α → Bool) (l : List α)
    (h : (l.filter p).length ≤ 1) {a b : α} (ha : a ∈ l) (hb : b ∈ l)
    (hpa : p a = true) (hpb : p b = true) : a = b := by
  have haf : a ∈ l.filter p := List.mem_filter.mpr ⟨ha, hpa⟩
  have hbf : b ∈ l.filter p := List.mem_filter.mpr ⟨hb, hpb⟩
  cases hl : l.filter p with
  | nil =>
    rw [hl] at haf
    exact absurd haf (List.not_mem_nil a)
  | cons x tl =>
    cases tl with
    | nil =>
      rw [hl] at haf hbf
      rw [List.mem_singleton.mp haf, List.mem_singleton.mp hbf]
    | cons y rest =>
      rw [hl] at h
      simp at h

/-- Claim C4: reset-code validation hands the callback the boolean false,
not an error, when no row matches the code and user with `used == false`,
`invalid == false` and `createdAt` inside the twenty-four-hour window; when
a row matches, it flips that row's `used` to true and hands back true, so a
repeated validation of the same code returns false; and this boolean
outcome is an asymmetry with login-token verification, which rejects the
same no-matching-row condition with the unauthorized error. -/
theorem validateReset_boolean_spec (db : List ResetCode) (now nowLater uid : Nat)
    (code : String)
    (huniq : (db.filter fun r => r.code == code && r.userId == uid).length ≤ 1) :
    ((¬ ∃ r ∈ db, r.code = code ∧ r.userId = uid ∧ r.used = false ∧
        r.invalid = false ∧ now - RESET_EXPIRY_TIME ≤ r.createdAt) →
      validateReset db now code uid = (db, false))
  ∧ (∀ r, db.find? (resetMatches now uid code) = some r →
      validateReset db now code uid = (markResetUsed db r.id, true)
      ∧ { r with used := true } ∈ (validateReset db now code uid).1)
  ∧ ((validateReset db now code uid).2 = true →
      (validateReset (validateReset db now code uid).1 nowLater code uid).2 = false)
  ∧ (∀ dbTok tok, (¬ ∃ t ∈ dbTok, tokenMatches now uid tok t = true) →
      (lookupToken dbTok now uid tok).2 = Except.error ModelError.unauthorized) := by
  refine ⟨?_, ?_, ?_, ?_⟩
  · intro hno
    have hnone : db.find? (resetMatches now uid code) = none := by
      rw [List.find?_eq_none]
      intro r hr hm
      exact hno ⟨r, hr, (resetMatches_iff now uid code r).mp hm⟩
    simp [validateReset, hnone]
  · intro r hf
    have h1 : validateReset db now code uid = (markResetUsed db r.id, true) := by
      simp [validateReset, hf]
    refine ⟨h1, ?_⟩
    rw [h1]
    simp only [markResetUsed, List.mem_map]
    exact ⟨r, List.mem_of_find?_eq_some hf, by simp⟩
  · intro htrue
    cases hf : db.find? (resetMatches now uid code) with
    | none =>
      rw [validateReset, hf] at htrue
      simp at htrue
    | some r =>
      have hr : r ∈ db := List.mem_of_find?_eq_some hf
      have hrm := (resetMatches_iff now uid code r).mp (List.find?_some hf)
      have h1 : (validateReset db now code uid).1 = markResetUsed db r.id := by
        simp [validateReset, hf]
      rw [h1]
      have hnone : (markResetUsed db r.id).find? (resetMatches nowLater uid code)
          = none := by
        rw [List.find?_eq_none]
        intro x hx
        simp only [markResetUsed, List.mem_map] at hx
        obtain ⟨y, hy, rfl⟩ := hx
        by_cases hid : (y.id == r.id) = true
        · rw [if_pos hid]
          intro hm
          rw [resetMatches_iff] at hm
          exact absurd hm.2.2.1 (by simp)
        · rw [if_neg hid]
          intro hm
          rw [resetMatches_iff] at hm
          have hyr : y = r := eq_of_filter_length_le_one _ db huniq hy hr
            (by simp [hm.1, hm.2.1]) (by simp [hrm.1, hrm.2.1])
          exact hid (by simp [hyr])
      simp [validateReset, hnone]
  · intro dbTok tok hno
    have hnone : dbTok.find? (tokenMatches now uid tok) = none := by
      rw [List.find?_eq_none]
      intro t ht hm
      exact hno ⟨t, ht, hm⟩
    simp [lookupToken, lookupWriteStep, lookupFindStep, hnone]

/-- Claim C4's theorem at a concrete input: validating a code that no row
matches hands the callback false rather than an error. -/
theorem validateReset_boolean_spec_witness :
    validateReset [] 0 "deadbeef" 7 = ([], false) :=
  (validateReset_boolean_spec [] 0 0 7 "deadbeef" (by decide)).1
    (by rintro ⟨r, hr, -⟩; exact absurd hr (List.not_mem_nil r))

/-- Modelled from the spec: the password-reset request flow of the
surrounding service (its route layer is not among the analysed sources),
where `InvalidateActive` is "called before or as part of issuing a new
code" — every still-active older code of the user is invalidated, then the
new row is created through `createResetCode`. -/
def issueResetCode (db : List ResetCode) (newId : Nat) (u : UserRec)
    (code webmakerURL : String) (now : Nat) : List ResetCode :=
  (createResetCode (invalidateActiveResets db now u.id).1 newId u code
    webmakerURL now).1

theorem resetIfAux (now uid : Nat) (r : ResetCode) :
    ((if resetActive now uid r then { r with invalid := true } else r).code = r.code)
    ∧ ((if resetActive now uid r then { r with invalid := true } else r).userId
        = r.userId) := by
  split <;> exact ⟨rfl, rfl⟩

theorem markIfAux (i : Nat) (r : ResetCode) :
    ((if r.id == i then { r with used := true } else r).code = r.code)
    ∧ ((if r.id == i then { r with used := true } else r).userId = r.userId) := by
  split <;> exact ⟨rfl, rfl⟩

/-- Claim C5: issuing a new reset code supersedes the previous one: after
code `c1` is issued at `t0` for the user and code `c2` is issued at `t1`
(with `c1` still inside its twenty-four-hour window at `t1`, both codes new
for the table), validating `c1` returns false, validating `c2` returns
true, and repeating the validation of `c2` returns false. -/
theorem issueResetCode_supersedes (db : List ResetCode) (u : UserRec)
    (id1 id2 t0 t1 t2 : Nat) (c1 c2 webURL : String)
    (hne : c1 ≠ c2)
    (hf1 : ∀ r ∈ db, ¬(r.code = c1 ∧ r.userId = u.id))
    (hf2 : ∀ r ∈ db, ¬(r.code = c2 ∧ r.userId = u.id))
    (hw1 : t1 - RESET_EXPIRY_TIME ≤ t0)
    (hw2 : t2 - RESET_EXPIRY_TIME ≤ t1) :
    (validateReset
        (issueResetCode (issueResetCode db id1 u c1 webURL t0) id2 u c2 webURL t1)
        t2 c1 u.id).2 = false
  ∧ (validateReset
        (issueResetCode (issueResetCode db id1 u c1 webURL t0) id2 u c2 webURL t1)
        t2 c2 u.id).2 = true
  ∧ (validateReset
        (validateReset
          (issueResetCode (issueResetCode db id1 u c1 webURL t0) id2 u c2 webURL t1)
          t2 c2 u.id).1 t2 c2 u.id).2 = false := by
  have hrowAct : resetActive t1 u.id
      { id := id1, userId := u.id, code := c1, used := false, invalid := false,
        createdAt := t0 } = true := by
    simp [resetActive, hw1]
  have hdb2 : issueResetCode (issueResetCode db id1 u c1 webURL t0) id2 u c2 webURL t1
      = (db.map fun r =>
          if resetActive t0 u.id r then { r with invalid := true } else r).map
            (fun r => if resetActive t1 u.id r then { r with invalid := true } else r)
        ++ [{ id := id1, userId := u.id, code := c1, used := false, invalid := true,
              createdAt := t0 },
            { id := id2, userId := u.id, code := c2, used := false, invalid := false,
              createdAt := t1 }] := by
    show ((db.map fun r =>
        if resetActive t0 u.id r then { r with invalid := true } else r)
        ++ [({ id := id1, userId := u.id, code := c1, used := false,
               invalid := false, createdAt := t0 } : ResetCode)]).map
          (fun r => if resetActive t1 u.id r then { r with invalid := true } else r)
        ++ [({ id := id2, userId := u.id, code := c2, used := false,
               invalid := false, createdAt := t1 } : ResetCode)] = _
    rw [List.map_append, List.append_assoc]
    congr 1
    simp [hrowAct]
  have hmem : ∀ x ∈ issueResetCode (issueResetCode db id1 u c1 webURL t0) id2 u c2
      webURL t1,
      (∃ y ∈ db, x.code = y.code ∧ x.userId = y.userId)
      ∨ x = { id := id1, userId := u.id, code := c1, used := false, invalid := true,
              createdAt := t0 }
      ∨ x = { id := id2, userId := u.id, code := c2, used := false, invalid := false,
              createdAt := t1 } := by
    intro x hx
    rw [hdb2] at hx
    rcases List.mem_append.mp hx with hx | hx
    · left
      obtain ⟨a, ha, rfl⟩ := List.mem_map.mp hx
      obtain ⟨y, hy, rfl⟩ := List.mem_map.mp ha
      exact ⟨y, hy, ((resetIfAux t1 u.id _).1).trans (resetIfAux t0 u.id y).1,
        ((resetIfAux t1 u.id _).2).trans (resetIfAux t0 u.id y).2⟩
    · rcases List.mem_cons.mp hx with hx | hx
      · exact Or.inr (Or.inl hx)
      · exact Or.inr (Or.inr (List.mem_singleton.mp hx))
  have hnone1 : (issueResetCode (issueResetCode db id1 u c1 webURL t0) id2 u c2
      webURL t1).find? (resetMatches t2 u.id c1) = none := by
    rw [List.find?_eq_none]
    intro x hx hm
    rw [resetMatches_iff] at hm
    rcases hmem x hx with ⟨y, hy, hc, hu⟩ | rfl | rfl
    · exact hf1 y hy ⟨hc.symm.trans hm.1, hu.symm.trans hm.2.1⟩
    · exact absurd hm.2.2.2.1 (by simp)
    · exact hne hm.1.symm
  have hm2 : resetMatches t2 u.id c2
      { id := id2, userId := u.id, code := c2, used := false, invalid := false,
        createdAt := t1 } = true := by
    simp [resetMatches, hw2]
  have hm1' : resetMatches t2 u.id c2
      { id := id1, userId := u.id, code := c1, used := false, invalid := true,
        createdAt := t0 } = false := by
    simp [resetMatches]
  have hBigNone : ∀ b ∈ (db.map fun r =>
      if resetActive t0 u.id r then { r with invalid := true } else r).map
        (fun r => if resetActive t1 u.id r then { r with invalid := true } else r),
      resetMatches t2 u.id c2 b = false := by
    intro b hb
    obtain ⟨a, ha, rfl⟩ := List.mem_map.mp hb
    obtain ⟨y, hy, rfl⟩ := List.mem_map.mp ha
    refine Bool.eq_false_iff.mpr fun hmb => ?_
    rw [resetMatches_iff] at hmb
    have hc := hmb.1
    rw [(resetIfAux t1 u.id _).1, (resetIfAux t0 u.id y).1] at hc
    have hu := hmb.2.1
    rw [(resetIfAux t1 u.id _).2, (resetIfAux t0 u.id y).2] at hu
    exact hf2 y hy ⟨hc, hu⟩
  have hfind2 : (issueResetCode (issueResetCode db id1 u c1 webURL t0) id2 u c2
      webURL t1).find? (resetMatches t2 u.id c2)
      = some { id := id2, userId := u.id, code := c2, used := false,
               invalid := false, createdAt := t1 } := by
    rw [hdb2, find?_append_of_none _ _ _ hBigNone,
      List.find?_cons_of_neg _ (by simp [hm1']), List.find?_cons_of_pos _ hm2]
  have h31 : (validateReset (issueResetCode (issueResetCode db id1 u c1 webURL t0)
      id2 u c2 webURL t1) t2 c2 u.id).1
      = markResetUsed (issueResetCode (issueResetCode db id1 u c1 webURL t0) id2 u
          c2 webURL t1) id2 := by
    simp [validateReset, hfind2]
  have hnone3 : (markResetUsed (issueResetCode (issueResetCode db id1 u c1 webURL
      t0) id2 u c2 webURL t1) id2).find? (resetMatches t2 u.id c2) = none := by
    rw [List.find?_eq_none]
    intro x hx hm
    simp only [markResetUsed, List.mem_map] at hx
    obtain ⟨y, hyd, rfl⟩ := hx
    rw [resetMatches_iff] at hm
    rcases hmem y hyd with ⟨z, hz, hc, hu⟩ | rfl | rfl
    · have h0 := hm.1
      rw [(markIfAux id2 y).1] at h0
      have h1 := hm.2.1
      rw [(markIfAux id2 y).2] at h1
      exact hf2 z hz ⟨hc.symm.trans h0, hu.symm.trans h1⟩
    · have h0 := hm.1
      rw [(markIfAux id2 _).1] at h0
      exact hne h0
    · have h0 := hm.2.2.1
      rw [if_pos (by simp)] at h0
      exact absurd h0 (by simp)
  refine ⟨by simp [validateReset, hnone1], by simp [validateReset, hfind2], ?_⟩
  rw [h31]
  simp [validateReset, hnone3]

/-- Claim C5's theorem at a concrete input: code "aa" issued at time 0 for
user 7 is superseded by code "bb" issued an hour later; validating "bb"
then returns true. -/
theorem issueResetCode_supersedes_witness :
    (validateReset
        (issueResetCode (issueResetCode [] 1
            { id := 7, username := "ann", email := "ann@example.org",
              verified := true, usePasswordLogin := false, password := none }
            "aa" "https://webmaker.org" 0) 2
          { id := 7, username := "ann", email := "ann@example.org",
            verified := true, usePasswordLogin := false, password := none }
          "bb" "https://webmaker.org" 3600000)
        3600000 "bb" 7).2 = true :=
  (issueResetCode_supersedes []
    { id := 7, username := "ann", email := "ann@example.org",
      verified := true, usePasswordLogin := false, password := none }
    1 2 0 3600000 3600000 "aa" "bb" "https://webmaker.org"
    (by decide)
    (by intro r hr; exact absurd hr (List.not_mem_nil r))
    (by intro r hr; exact absurd hr (List.not_mem_nil r))
    (by decide) (by decide)).2.1

/-- Claim C6 concerns the atomicity of the lookup-then-flip. In the source
the two store accesses of `lookupToken` are a plain find followed by an
update addressed only by primary key (`lookupFindStep` then
`lookupWriteStep`), not one conditional update guarded by `used == false`.
This theorem exhibits the interleaving of two verification attempts for the
same valid token in which both finds run before either write: both attempts
then take the write path and both report success, so the code does not
realize the at-most-one-success guarantee the claim states. -/
theorem lookupToken_race_double_success :
    (lookupWriteStep
      [{ id := 1, userId := 7, token := "kapop", used := false, createdAt := 0 }]
      (lookupFindStep
        [{ id := 1, userId := 7, token := "kapop", used := false, createdAt := 0 }]
        0 7 "kapop")).2 = Except.ok ()
  ∧ (lookupWriteStep
      (lookupWriteStep
        [{ id := 1, userId := 7, token := "kapop", used := false, createdAt := 0 }]
        (lookupFindStep
          [{ id := 1, userId := 7, token := "kapop", used := false, createdAt := 0 }]
          0 7 "kapop")).1
      (lookupFindStep
        [{ id := 1, userId := 7, token := "kapop", used := false, createdAt := 0 }]
        0 7 "kapop")).2 = Except.ok ()
  ∧ (lookupToken
      [{ id := 1, userId := 7, token := "kapop", used := false, createdAt := 0 }]
      0 7 "kapop").2 = Except.ok () := by
  refine ⟨rfl, ?_, rfl⟩
  have h : lookupFindStep
      [{ id := 1, userId := 7, token := "kapop", used := false, createdAt := 0 }]
      0 7 "kapop" = some 1 := by
    simp [lookupFindStep, List.find?, tokenMatches]
  rw [h]
  rfl

/-- Branch outcomes of `changePassword`'s promise chain of store writes:
everything completes, the `updateAttributes({usePasswordLogin: true})`
write fails, or the subsequent `setPassword` write fails; any failure lands
in the chain's single `.error` handler. -/
inductive StoreOutcome where
  | ok
  | failFlag
  | failPassword
deriving DecidableEq, Repr

/-- `changePassword(newPass, user, callback)`. The bcrypt work is external,
so its outcome is an argument: `hashResult = some h` models
`bcrypt.genSalt`/`bcrypt.hash` delivering hash `h`, and `hashResult = none`
models the error case, in which bcrypt invokes the callback with `err` set
and the hash argument undefined — the source ignores both `err` parameters
and continues, assigning the undefined hash to `pass.saltedHash`. The
credential object is the user's existing one when present
(`user.password || password.build()`), otherwise a fresh build whose row id
is `freshId`. On a store failure the `.error` handler reports the generic
login database error; the chain stops at the failed write. -/
def changePassword (hashResult : Option String) (oc : StoreOutcome) (freshId : Nat)
    (u : UserRec) : UserRec × Except ModelError Unit × List Event :=
  let pass : Credential :=
    { u.password.getD { id := freshId, saltedHash := none } with
        saltedHash := hashResult }
  match oc with
  | StoreOutcome.failFlag =>
    (u, Except.error ModelError.loginDatabaseError, [])
  | StoreOutcome.failPassword =>
    ({ u with usePasswordLogin := true },
     Except.error ModelError.loginDatabaseError, [])
  | StoreOutcome.ok =>
    ({ u with usePasswordLogin := true, password := some pass },
     Except.ok (), [Event.userPasswordChanged u.email u.username])

/-- Claim C7 states that a bcrypt hashing failure must abort
`changePassword` with a hashing error and no persistence write. The source
ignores the `err` parameters of `bcrypt.genSalt` and `bcrypt.hash`: with
the hash callback delivering an error (hash undefined) and the store
healthy, the operation still writes the credential — with no hash value —
flips `usePasswordLogin` to true and reports plain success. -/
theorem changePassword_ignores_hash_error :
    (changePassword none StoreOutcome.ok 5
      { id := 7, username := "ann", email := "ann@example.org",
        verified := true, usePasswordLogin := false, password := none }).2.1
      = Except.ok ()
  ∧ (changePassword none StoreOutcome.ok 5
      { id := 7, username := "ann", email := "ann@example.org",
        verified := true, usePasswordLogin := false, password := none }).1.password
      = some { id := 5, saltedHash := none }
  ∧ (changePassword none StoreOutcome.ok 5
      { id := 7, username := "ann", email := "ann@example.org",
        verified := true, usePasswordLogin := false, password := none
      }).1.usePasswordLogin = true := ⟨rfl, rfl, rfl⟩

/-- Claim C8: after a successful `changePassword` the user holds exactly one
credential record — the existing record's id when one existed, a fresh one
otherwise — carrying the new hash; `usePasswordLogin` is set to true; the
emitted event is exactly `user-password-changed` with payload fields
`email` and `username`; and on a store failure the callback receives the
generic login database error. -/
theorem changePassword_spec (hsh : String) (freshId : Nat) (u : UserRec) :
    (∀ c, u.password = some c →
      (changePassword (some hsh) StoreOutcome.ok freshId u).1.password
        = some { id := c.id, saltedHash := some hsh })
  ∧ (u.password = none →
      (changePassword (some hsh) StoreOutcome.ok freshId u).1.password
        = some { id := freshId, saltedHash := some hsh })
  ∧ (changePassword (some hsh) StoreOutcome.ok freshId u).1.usePasswordLogin = true
  ∧ (changePassword (some hsh) StoreOutcome.ok freshId u).2.2
      = [Event.userPasswordChanged u.email u.username]
  ∧ (changePassword (some hsh) StoreOutcome.ok freshId u).2.1 = Except.ok ()
  ∧ (∀ oc, oc ≠ StoreOutcome.ok →
      (changePassword (some hsh) oc freshId u).2.1
        = Except.error ModelError.loginDatabaseError) := by
  refine ⟨?_, ?_, rfl, rfl, rfl, ?_⟩
  · intro c hc
    simp [changePassword, hc]
  · intro hc
    simp [changePassword, hc]
  · intro oc hoc
    cases oc with
    | ok => exact absurd rfl hoc
    | failFlag => rfl
    | failPassword => rfl

/-- `removePassword(user, callback)`: `user.password.destroy()` dereferences
the credential association without a guard — when the user has no password
row the dereference of `undefined` throws before any callback runs;
otherwise the row is destroyed and `usePasswordLogin` cleared, a store
failure being reported as the generic removal error. -/
def removePassword (storeOk : Bool) (u : UserRec) : UserRec × CallOutcome Unit :=
  match u.password with
  | none => (u, CallOutcome.thrown)
  | some _ =>
    if storeOk then
      ({ u with password := none, usePasswordLogin := false }, CallOutcome.ok ())
    else (u, CallOutcome.err ModelError.errorRemovingPassword)

/-- `compare(pass, user, callback)`: `user.password.saltedHash` is likewise
dereferenced without a guard, throwing when the user has no password row;
otherwise the bcrypt comparison result (external, passed in as
`bcryptRes`) is handed to the callback. -/
def compare (bcryptRes : Bool) (_pass : String) (u : UserRec) : CallOutcome Bool :=
  match u.password with
  | none => CallOutcome.thrown
  | some _ => CallOutcome.ok bcryptRes

/-- Claim C10: `removePassword` and `compare` are only safe on users that
hold a password credential: without one, each dereferences the missing
record and throws instead of reaching its callback — in particular
`removePassword` does not produce its generic removal error there — while
with a credential present neither operation throws. -/
theorem removePassword_compare_unguarded (u : UserRec) (storeOk bres : Bool)
    (pass : String) :
    (u.password = none →
      removePassword storeOk u = (u, CallOutcome.thrown)
      ∧ WebmakerModels.compare bres pass u = CallOutcome.thrown
      ∧ (removePassword storeOk u).2
          ≠ CallOutcome.err ModelError.errorRemovingPassword)
  ∧ (∀ c, u.password = some c →
      (removePassword storeOk u).2 ≠ CallOutcome.thrown
      ∧ WebmakerModels.compare bres pass u = CallOutcome.ok bres) := by
  constructor
  · intro hnone
    refine ⟨?_, ?_, ?_⟩
    · simp [removePassword, hnone]
    · simp [WebmakerModels.compare, hnone]
    · simp [removePassword, hnone]
  · intro c hc
    constructor
    · cases storeOk <;> simp [removePassword, hc]
    · simp [WebmakerModels.compare, hc]

/-- Modelled from the spec: the pronounceable-token encoding used by
`createToken` comes from the external proquint npm library, not from this
repository. Sixteen consonants carry four bits each. -/
def proquintConsonants : List Char := String.toList "bdfghjklmnprstvz"

/-- The four proquint vowels, carrying two bits each. -/
def proquintVowels : List Char := String.toList "aiou"

/-- One 16-bit word encoded as the five letters
consonant-vowel-consonant-vowel-consonant. -/
def encodeWord16 (n : Nat) : List Char :=
  [proquintConsonants.getD (n / 4096 % 16) 'b',
   proquintVowels.getD (n / 1024 % 4) 'a',
   proquintConsonants.getD (n / 64 % 16) 'b',
   proquintVowels.getD (n / 16 % 4) 'a',
   proquintConsonants.getD (n % 16) 'b']

/-- `proquint.encode(crypto.randomBytes(4))` in `createToken`: the four
random bytes form two big-endian 16-bit words, each encoded into five
letters, the two words joined with a hyphen. -/
def proquintEncode4 (b0 b1 b2 b3 : Nat) : List Char :=
  encodeWord16 (b0 * 256 + b1) ++ '-' :: encodeWord16 (b2 * 256 + b3)

/-- Position of a letter in the consonant alphabet. -/
def conIdx (c : Char) : Option Nat := proquintConsonants.findIdx? (· == c)

/-- Position of a letter in the vowel alphabet. -/
def vowIdx (c : Char) : Option Nat := proquintVowels.findIdx? (· == c)

/-- Decoding of one five-letter proquint word. -/
def decodeWord16 (cs : List Char) : Option Nat :=
  match cs with
  | [c0, v0, c1, v1, c2] =>
    match conIdx c0, vowIdx v0, conIdx c1, vowIdx v1, conIdx c2 with
    | some d0, some d1, some d2, some d3, some d4 =>
      some ((((d0 * 4 + d1) * 16 + d2) * 4 + d3) * 16 + d4)
    | _, _, _, _, _ => none
  | _ => none

/-- Decoding of the eleven-letter login-token format back to four bytes. -/
def proquintDecode4 (s : List Char) : Option (Nat × Nat × Nat × Nat) :=
  match s with
  | [c0, v0, c1, v1, c2, h, c3, v2, c4, v3, c5] =>
    if h = '-' then
      match decodeWord16 [c0, v0, c1, v1, c2], decodeWord16 [c3, v2, c4, v3, c5] with
      | some w1, some w2 => some (w1 / 256, w1 % 256, w2 / 256, w2 % 256)
      | _, _ => none
    else none
  | _ => none

/-- The declared login-token format: five proquint letters, a hyphen, five
proquint letters, consonants and vowels alternating. -/
def isProquintToken (s : List Char) : Bool :=
  match s with
  | [c0, v0, c1, v1, c2, h, c3, v2, c4, v3, c5] =>
    proquintConsonants.contains c0 && proquintVowels.contains v0 &&
    proquintConsonants.contains c1 && proquintVowels.contains v1 &&
    proquintConsonants.contains c2 && (h == '-') &&
    proquintConsonants.contains c3 && proquintVowels.contains v2 &&
    proquintConsonants.contains c4 && proquintVowels.contains v3 &&
    proquintConsonants.contains c5
  | _ => false

/-- The sixteen base-16 digit characters. -/
def hexAlphabet : List Char := String.toList "0123456789abcdef"

/-- Modelled from the spec: `hat(RESET_CODE_BIT_LENGTH, RESET_CODE_BASE)` in
`createResetCode` comes from the external hat npm library; 256 bits drawn
in base 16 are sixty-four random hexadecimal digits, one character each. -/
def hatEncode (digits : List Nat) : List Char :=
  digits.map fun d => hexAlphabet.getD d '0'

theorem conIdx_getD : ∀ k < 16, conIdx (proquintConsonants.getD k 'b') = some k := by
  decide

theorem vowIdx_getD : ∀ k < 4, vowIdx (proquintVowels.getD k 'a') = some k := by
  decide

theorem con_contains_getD :
    ∀ k < 16, proquintConsonants.contains (proquintConsonants.getD k 'b') = true := by
  decide

theorem vow_contains_getD :
    ∀ k < 4, proquintVowels.contains (proquintVowels.getD k 'a') = true := by
  decide

theorem hex_getD_mem : ∀ k < 16, hexAlphabet.getD k '0' ∈ hexAlphabet := by
  decide

theorem decodeWord16_encodeWord16 (w : Nat) (hw : w < 65536) :
    decodeWord16 (encodeWord16 w) = some w := by
  have h0 := conIdx_getD (w / 4096 % 16) (Nat.mod_lt _ (by norm_num))
  have h1 := vowIdx_getD (w / 1024 % 4) (Nat.mod_lt _ (by norm_num))
  have h2 := conIdx_getD (w / 64 % 16) (Nat.mod_lt _ (by norm_num))
  have h3 := vowIdx_getD (w / 16 % 4) (Nat.mod_lt _ (by norm_num))
  have h4 := conIdx_getD (w % 16) (Nat.mod_lt _ (by norm_num))
  simp only [encodeWord16, decodeWord16, h0, h1, h2, h3, h4]
  congr 1
  omega

/-- Claim C9: every generated login token is the proquint encoding of
exactly four random bytes — eleven characters in the declared
consonant/vowel/hyphen format, decodable back to the same four bytes — and
every generated reset code is 256 random bits in base 16: sixty-four
characters, each a hexadecimal digit. The randomness source itself is
external; the properties hold for every possible draw. -/
theorem generated_token_code_formats (b0 b1 b2 b3 : Nat) (digits : List Nat)
    (h0 : b0 < 256) (h1 : b1 < 256) (h2 : b2 < 256) (h3 : b3 < 256)
    (hlen : digits.length = 64) (hdig : ∀ d ∈ digits, d < 16) :
    isProquintToken (proquintEncode4 b0 b1 b2 b3) = true
  ∧ (proquintEncode4 b0 b1 b2 b3).length = 11
  ∧ proquintDecode4 (proquintEncode4 b0 b1 b2 b3) = some (b0, b1, b2, b3)
  ∧ (hatEncode digits).length = 64
  ∧ ∀ c ∈ hatEncode digits, c ∈ hexAlphabet := by
  have hc : ∀ k : Nat,
      proquintConsonants.contains (proquintConsonants.getD (k % 16) 'b') = true :=
    fun k => con_contains_getD (k % 16) (Nat.mod_lt _ (by norm_num))
  have hv : ∀ k : Nat,
      proquintVowels.contains (proquintVowels.getD (k % 4) 'a') = true :=
    fun k => vow_contains_getD (k % 4) (Nat.mod_lt _ (by norm_num))
  refine ⟨?_, rfl, ?_, ?_, ?_⟩
  · simp only [isProquintToken, proquintEncode4, encodeWord16, List.cons_append,
      List.nil_append, hc, hv, beq_self_eq_true, Bool.and_self, Bool.and_true,
      Bool.true_and]
  · have e1 : b0 * 256 + b1 < 65536 := by omega
    have e2 : b2 * 256 + b3 < 65536 := by omega
    have hr1 := decodeWord16_encodeWord16 (b0 * 256 + b1) e1
    have hr2 := decodeWord16_encodeWord16 (b2 * 256 + b3) e2
    simp only [encodeWord16] at hr1 hr2
    simp only [proquintEncode4, encodeWord16, List.cons_append, List.nil_append,
      proquintDecode4]
    rw [if_pos trivial, hr1, hr2]
    refine congrArg some ?_
    have q0 : (b0 * 256 + b1) / 256 = b0 := by omega
    have q1 : (b0 * 256 + b1) % 256 = b1 := by omega
    have q2 : (b2 * 256 + b3) / 256 = b2 := by omega
    have q3 : (b2 * 256 + b3) % 256 = b3 := by omega
    rw [q0, q1, q2, q3]
  · simp [hatEncode, hlen]
  · intro c hcm
    obtain ⟨d, hd, rfl⟩ := List.mem_map.mp hcm
    exact hex_getD_mem d (hdig d hd)

/-- Claim C9's theorem at a concrete draw: the four bytes 171, 205, 18, 52
decode back from their pronounceable encoding. -/
theorem generated_token_code_formats_witness :
    proquintDecode4 (proquintEncode4 171 205 18 52) = some (171, 205, 18, 52) :=
  (generated_token_code_formats 171 205 18 52 (List.replicate 64 5)
    (by decide) (by decide) (by decide) (by decide) (by decide) (by decide)).2.2.1

end WebmakerModels
